import Mathlib

set_option autoImplicit false

/-!
Verification of the termscp directory-state engine (`src/explorer/mod.rs`)
and the copy orchestrator (`src/ui/activities/filetransfer/actions/copy.rs`)
against their natural-language specification.

The Rust code is shallowly embedded: entries, the explorer state and the
pure list operations are translated directly; the stateful copy actions are
modelled as functions from a backend-behaviour environment to the list of
observable effects (backend calls, log messages, directory reloads) they
produce, together with their return value.
-/

namespace Termscp

/-! ### Entry model (remotefs `Entry`, `Metadata`) -/

/-- Metadata of a filesystem entry (remotefs `Metadata`): timestamps are
modelled as naturals, sizes as naturals, optional owner and mode fields kept. -/
structure Metadata where
  atime : Nat
  ctime : Nat
  mtime : Nat
  size : Nat
  uid : Option Nat := none
  gid : Option Nat := none
  mode : Option Nat := none
  symlink : Option String := none
deriving DecidableEq, Repr

/-- remotefs `File`: a file entry. Paths are modelled as strings. -/
structure FileData where
  name : String
  path : String
  extension : Option String := none
  metadata : Metadata
deriving DecidableEq, Repr

/-- remotefs `Directory`: a directory entry. -/
structure DirData where
  name : String
  path : String
  metadata : Metadata
deriving DecidableEq, Repr

/-- remotefs `Entry`: either a file or a directory. -/
inductive Entry where
  | file : FileData → Entry
  | directory : DirData → Entry
deriving DecidableEq, Repr

namespace Entry

/-- Rust `Entry::name()` -/
def name : Entry → String
  | .file f => f.name
  | .directory d => d.name

/-- Rust `Entry::path()` -/
def path : Entry → String
  | .file f => f.path
  | .directory d => d.path

/-- Rust `Entry::metadata()` -/
def metadata : Entry → Metadata
  | .file f => f.metadata
  | .directory d => d.metadata

/-- Rust `Entry::is_file()` -/
def isFile : Entry → Bool
  | .file _ => true
  | .directory _ => false

/-- Rust `Entry::is_dir()` -/
def isDir : Entry → Bool
  | .file _ => false
  | .directory _ => true

/-- Rust `Entry::is_hidden()`: the name starts with a dot. -/
def isHidden (e : Entry) : Bool :=
  e.name.startsWith "."

/-- Rust `Entry::unwrap_file()`: extract the file payload (the Rust original
panics on a directory; the directory case here coerces the fields, which is
never exercised on the panic-free paths the theorems talk about). -/
def unwrapFile : Entry → FileData
  | .file f => f
  | .directory d => { name := d.name, path := d.path, metadata := d.metadata }

end Entry

/-! ### Explorer state (`FileExplorer`) -/

/-- Rust `FileSorting`: the sort criteria. -/
inductive FileSorting where
  | name
  | modifyTime
  | creationTime
  | size
deriving DecidableEq, Repr

/-- Rust `GroupDirs`: how directories are grouped. -/
inductive GroupDirs where
  | first
  | last
deriving DecidableEq, Repr

/-- Rust `FileExplorer`: the directory state engine. The single bitflag
`SHOW_HIDDEN_FILES` of `ExplorerOpts` is modelled as the boolean
`showHiddenFiles`. The `VecDeque` directory stack is a list whose head is
the front (oldest) element. -/
structure FileExplorer where
  wrkdir : String
  dirstack : List String
  stackSize : Nat
  fileSorting : FileSorting
  groupDirs : Option GroupDirs
  showHiddenFiles : Bool
  files : List Entry
deriving DecidableEq, Repr

/-- Rust `FileExplorer::default()` -/
def FileExplorer.default : FileExplorer :=
  { wrkdir := "/"
    dirstack := []
    stackSize := 16
    fileSorting := .name
    groupDirs := none
    showHiddenFiles := false
    files := [] }

namespace FileExplorer

/-- The eviction loop of `pushd`:
`while self.dirstack.len() >= self.stack_size { self.dirstack.pop_front(); }`.
(For `size = 0` the Rust loop would never terminate; the theorems about
`pushd` therefore assume a positive capacity.) -/
def shrinkFront (size : Nat) : List String → List String
  | [] => []
  | p :: ps => if size ≤ ps.length + 1 then shrinkFront size ps else p :: ps

/-- Rust `FileExplorer::pushd`: evict from the front while full, then push back. -/
def pushd (e : FileExplorer) (dir : String) : FileExplorer :=
  { e with dirstack := shrinkFront e.stackSize e.dirstack ++ [dir] }

/-- Rust `FileExplorer::popd`: pop the back of the stack, returning it. -/
def popd (e : FileExplorer) : Option String × FileExplorer :=
  (e.dirstack.getLast?, { e with dirstack := e.dirstack.dropLast })

/-! #### Sorting -/

/-- Ascending order on a sort key: the relation a stable `sort_by_key` sorts by. -/
def ascRel {α κ : Type} (k : α → κ) [LinearOrder κ] : α → α → Prop :=
  fun a b => k a ≤ k b

/-- Descending order on a sort key (`sort_by_key` with `Reverse`, or the
flipped comparator of `sort_files_by_mtime`). -/
def descRel {α κ : Type} (k : α → κ) [LinearOrder κ] : α → α → Prop :=
  fun a b => k b ≤ k a

instance {α κ : Type} (k : α → κ) [LinearOrder κ] : DecidableRel (ascRel k) :=
  fun a b => inferInstanceAs (Decidable (k a ≤ k b))

instance {α κ : Type} (k : α → κ) [LinearOrder κ] : DecidableRel (descRel k) :=
  fun a b => inferInstanceAs (Decidable (k b ≤ k a))

instance {α κ : Type} (k : α → κ) [LinearOrder κ] : IsTotal α (ascRel k) :=
  ⟨fun a b => le_total (k a) (k b)⟩

instance {α κ : Type} (k : α → κ) [LinearOrder κ] : IsTotal α (descRel k) :=
  ⟨fun a b => le_total (k b) (k a)⟩

instance {α κ : Type} (k : α → κ) [LinearOrder κ] : IsTrans α (ascRel k) :=
  ⟨fun _ _ _ h1 h2 => le_trans h1 h2⟩

instance {α κ : Type} (k : α → κ) [LinearOrder κ] : IsTrans α (descRel k) :=
  ⟨fun _ _ _ h1 h2 => le_trans h2 h1⟩

/-- Rust `sort_files_by_name`: stable sort by the lowercased name
(`sort_by_key(|x| x.name().to_lowercase())`). -/
def sort_files_by_name (e : FileExplorer) : FileExplorer :=
  { e with files := e.files.insertionSort (ascRel fun x => x.name.toLower) }

/-- Rust `sort_files_by_mtime`: stable sort, newest modification first
(`sort_by(|a, b| b.metadata().mtime.cmp(&a.metadata().mtime))`). -/
def sort_files_by_mtime (e : FileExplorer) : FileExplorer :=
  { e with files := e.files.insertionSort (descRel fun x => x.metadata.mtime) }

/-- Rust `sort_files_by_creation_time`: stable sort, newest creation first
(`sort_by_key(|b| Reverse(b.metadata().ctime))`). -/
def sort_files_by_creation_time (e : FileExplorer) : FileExplorer :=
  { e with files := e.files.insertionSort (descRel fun x => x.metadata.ctime) }

/-- Rust `sort_files_by_size`: stable sort, biggest first
(`sort_by_key(|b| Reverse(b.metadata().size))`). -/
def sort_files_by_size (e : FileExplorer) : FileExplorer :=
  { e with files := e.files.insertionSort (descRel fun x => x.metadata.size) }

/-- Rust `sort_files_directories_first`: stable sort by `is_file()`
(`false < true`, so directories come first). -/
def sort_files_directories_first (e : FileExplorer) : FileExplorer :=
  { e with files := e.files.insertionSort (ascRel Entry.isFile) }

/-- Rust `sort_files_directories_last`: stable sort by `is_dir()`. -/
def sort_files_directories_last (e : FileExplorer) : FileExplorer :=
  { e with files := e.files.insertionSort (ascRel Entry.isDir) }

/-- Rust `FileExplorer::sort`: primary criterion first, then the optional
directory grouping (which, as the source notes, must come after). -/
def sort (e : FileExplorer) : FileExplorer :=
  let e1 :=
    match e.fileSorting with
    | .name => e.sort_files_by_name
    | .creationTime => e.sort_files_by_creation_time
    | .modifyTime => e.sort_files_by_mtime
    | .size => e.sort_files_by_size
  match e1.groupDirs with
  | some .first => e1.sort_files_directories_first
  | some .last => e1.sort_files_directories_last
  | none => e1

/-- Rust `set_files`: replace the listing, then sort. -/
def set_files (e : FileExplorer) (files : List Entry) : FileExplorer :=
  sort { e with files := files }

/-- Rust `del_entry`: remove the entry at `idx` if in range, else do nothing. -/
def del_entry (e : FileExplorer) (idx : Nat) : FileExplorer :=
  if idx < e.files.length then { e with files := e.files.eraseIdx idx } else e

/-- The read-time visibility filter of `iter_files`: an element passes when
hidden files are shown or it is not hidden. -/
def visibleFilter (e : FileExplorer) (x : Entry) : Bool :=
  e.showHiddenFiles || !x.isHidden

/-- Rust `iter_files`: all files passing the visibility filter, in stored order. -/
def iter_files (e : FileExplorer) : List Entry :=
  e.files.filter e.visibleFilter

/-- Rust `iter_files_all`: all files, no filter. -/
def iter_files_all (e : FileExplorer) : List Entry :=
  e.files

/-- Rust `get`: the entry at `idx` within the filtered sequence. -/
def get (e : FileExplorer) (idx : Nat) : Option Entry :=
  (e.files.filter e.visibleFilter).get? idx

/-- Rust `sort_by`: re-sort only when the criterion actually changed. -/
def sort_by (e : FileExplorer) (sorting : FileSorting) : FileExplorer :=
  if e.fileSorting ≠ sorting then sort { e with fileSorting := sorting } else e

/-- Rust `group_dirs_by`: re-sort only when the group policy actually changed. -/
def group_dirs_by (e : FileExplorer) (groupDirs : Option GroupDirs) : FileExplorer :=
  if e.groupDirs ≠ groupDirs then sort { e with groupDirs := groupDirs } else e

/-- Rust `toggle_hidden_files`: toggle the `SHOW_HIDDEN_FILES` flag. -/
def toggle_hidden_files (e : FileExplorer) : FileExplorer :=
  { e with showHiddenFiles := !e.showHiddenFiles }

/-- Rust `hidden_files_visible` -/
def hidden_files_visible (e : FileExplorer) : Bool :=
  e.showHiddenFiles

end FileExplorer

/-! ### Copy orchestrator (`actions/copy.rs`)

The `FileTransferActivity` methods are stateful and call out to the host
backend, the remote client and the transfer pipeline
(`filetransfer_recv` / `filetransfer_send`, defined outside this module).
They are embedded as functions from an environment `Env` — the behaviour of
those collaborators — to the list of observable effects they perform, plus
the returned value where the Rust function returns one. -/

/-- Rust `PathBuf::push` of a leaf name onto a base path. -/
def pathPush (base leaf : String) : String :=
  base ++ "/" ++ leaf

/-- remotefs `RemoteErrorType` (the variants relevant to the copy flow;
only equality with `unsupportedFeature` is ever inspected). -/
inductive RemoteErrorType where
  | unsupportedFeature
  | notConnected
  | badFile
  | noSuchFileOrDirectory
  | protocolError
  | ioError
deriving DecidableEq, Repr

/-- remotefs `RemoteError`: an error kind plus its display text. -/
structure RemoteError where
  kind : RemoteErrorType
  display : String
deriving DecidableEq, Repr

/-- Rust `LogLevel` of the file-transfer activity. -/
inductive LogLevel where
  | error
  | warn
  | info
deriving DecidableEq, Repr

/-- Rust `TransferPayload` for the copy flow (only the variants it uses). -/
inductive TransferPayload where
  | file : FileData → TransferPayload
  | any : Entry → TransferPayload
deriving DecidableEq, Repr

/-- Rust `SelectedEntry`: the current selection of an explorer side. -/
inductive SelectedEntry where
  | one : Entry → SelectedEntry
  | many : List Entry → SelectedEntry
  | none : SelectedEntry
deriving DecidableEq, Repr

/-- One observable effect of a copy action: a backend call, a log line, or
a directory reload. -/
inductive Event where
  | umountWait
  | tmpfileCreated (path : String)
  | tmpdirCreated (path : String)
  | download (payload : TransferPayload) (dest : String) (rename : Option String)
  | statCall (path : String)
  | upload (payload : TransferPayload) (destDir : String) (rename : Option String)
  | clientCopy (src : String) (dest : String)
  | hostCopy (src : String) (dest : String)
  | logged (lvl : LogLevel) (msg : String)
  | loggedAndAlerted (lvl : LogLevel) (msg : String)
  | reloadLocalDir
  | reloadRemoteDir
deriving DecidableEq, Repr

namespace Event

def isDownload : Event → Bool
  | .download _ _ _ => true
  | _ => false

def isUpload : Event → Bool
  | .upload _ _ _ => true
  | _ => false

def isStatCall : Event → Bool
  | .statCall _ => true
  | _ => false

def isUmountWait : Event → Bool
  | .umountWait => true
  | _ => false

def isClientCopy : Event → Bool
  | .clientCopy _ _ => true
  | _ => false

def isHostCopy : Event → Bool
  | .hostCopy _ _ => true
  | _ => false

def isReloadRemote : Event → Bool
  | .reloadRemoteDir => true
  | _ => false

def isReloadLocal : Event → Bool
  | .reloadLocalDir => true
  | _ => false

/-- A log event, whether plain (`log`) or alerting (`log_and_alert`). -/
def isAnyLog : Event → Bool
  | .logged _ _ => true
  | .loggedAndAlerted _ _ => true
  | _ => false

end Event

/-- The behaviour of the collaborators a copy action calls into: temp-file
allocation, the transfer pipeline, the host backend and the remote client.
Each field gives the outcome of the corresponding call. -/
structure Env where
  tmpfileNew : Except String String
  tmpdirNew : Except String String
  recv : TransferPayload → String → Option String → Except String Unit
  send : TransferPayload → String → Option String → Except String Unit
  hostStat : String → Except String Entry
  hostCopy : Entry → String → Except String Unit
  clientCopy : String → String → Except RemoteError Unit
  remoteWrkdir : String

/-- Rust `FileTransferActivity::tricky_copy`: stage the entry through a scoped
temporary location (download, re-stat, upload), fail-fast at every stage.
Returns the trace of effects and the `Result<(), String>` of the Rust
function. -/
def tricky_copy (env : Env) (entry : Entry) (dest : String) :
    List Event × Except String Unit :=
  match entry with
  | .file f =>
    match env.tmpfileNew with
    | .error err =>
      ([.umountWait,
        .loggedAndAlerted .error ("Copy failed: could not create temporary file: " ++ err)],
       .error "Could not create temporary file")
    | .ok tmp =>
      match env.recv (.file f) tmp (some f.name) with
      | .error err =>
        ([.umountWait, .tmpfileCreated tmp,
          .download (.file f) tmp (some f.name),
          .loggedAndAlerted .error
            ("Copy failed: could not download to temporary file: " ++ err)],
         .error err)
      | .ok _ =>
        match env.hostStat tmp with
        | .error err =>
          ([.umountWait, .tmpfileCreated tmp,
            .download (.file f) tmp (some f.name), .statCall tmp,
            .loggedAndAlerted .error
              ("Copy failed: could not stat \"" ++ tmp ++ "\": " ++ err)],
           .error err)
        | .ok st =>
          let tf := st.unwrapFile
          match env.send (.file tf) env.remoteWrkdir (some dest) with
          | .error err =>
            ([.umountWait, .tmpfileCreated tmp,
              .download (.file f) tmp (some f.name), .statCall tmp,
              .upload (.file tf) env.remoteWrkdir (some dest),
              .loggedAndAlerted .error
                ("Copy failed: could not write file " ++ f.path ++ ": " ++ err)],
             .error err)
          | .ok _ =>
            ([.umountWait, .tmpfileCreated tmp,
              .download (.file f) tmp (some f.name), .statCall tmp,
              .upload (.file tf) env.remoteWrkdir (some dest)],
             .ok ())
  | .directory d =>
    match env.tmpdirNew with
    | .error err =>
      ([.umountWait,
        .loggedAndAlerted .error
          ("Copy failed: could not create temporary directory: " ++ err)],
       .error err)
    | .ok td =>
      let tdPath := pathPush td d.name
      match env.recv (.any (.directory d)) td none with
      | .error err =>
        ([.umountWait, .tmpdirCreated td,
          .download (.any (.directory d)) td none,
          .loggedAndAlerted .error ("Copy failed: failed to download file: " ++ err)],
         .error err)
      | .ok _ =>
        match env.hostStat tdPath with
        | .error err =>
          ([.umountWait, .tmpdirCreated td,
            .download (.any (.directory d)) td none, .statCall tdPath,
            .loggedAndAlerted .error
              ("Copy failed: could not stat \"" ++ td ++ "\": " ++ err)],
           .error err)
        | .ok st =>
          match env.send (.any st) env.remoteWrkdir (some dest) with
          | .error err =>
            ([.umountWait, .tmpdirCreated td,
              .download (.any (.directory d)) td none, .statCall tdPath,
              .upload (.any st) env.remoteWrkdir (some dest),
              .loggedAndAlerted .error ("Copy failed: failed to send file: " ++ err)],
             .error err)
          | .ok _ =>
            ([.umountWait, .tmpdirCreated td,
              .download (.any (.directory d)) td none, .statCall tdPath,
              .upload (.any st) env.remoteWrkdir (some dest)],
             .ok ())

/-- Rust `local_copy_file`: direct host-backend copy, logging the outcome. -/
def local_copy_file (env : Env) (entry : Entry) (dest : String) : List Event :=
  match env.hostCopy entry dest with
  | .ok _ =>
    [.hostCopy entry.path dest,
     .logged .info ("Copied \"" ++ entry.path ++ "\" to \"" ++ dest ++ "\"")]
  | .error err =>
    [.hostCopy entry.path dest,
     .loggedAndAlerted .error
       ("Could not copy \"" ++ entry.path ++ "\" to \"" ++ dest ++ "\": " ++ err)]

/-- Rust `remote_copy_file`: direct remote copy; on an `UnsupportedFeature`
error fall back to `tricky_copy` (whose result is discarded), on any other
error log and alert. -/
def remote_copy_file (env : Env) (entry : Entry) (dest : String) : List Event :=
  match env.clientCopy entry.path dest with
  | .ok _ =>
    [.clientCopy entry.path dest,
     .logged .info ("Copied \"" ++ entry.path ++ "\" to \"" ++ dest ++ "\"")]
  | .error err =>
    match err.kind with
    | .unsupportedFeature =>
      .clientCopy entry.path dest :: (tricky_copy env entry dest).1
    | _ =>
      [.clientCopy entry.path dest,
       .loggedAndAlerted .error
         ("Could not copy \"" ++ entry.path ++ "\" to \"" ++ dest ++ "\": "
           ++ err.display)]

/-- Rust `action_local_copy`: copy the local selection to `input`, then reload
the local listing; a multi-entry selection copies each entry to
`input / name`. -/
def action_local_copy (env : Env) (sel : SelectedEntry) (input : String) :
    List Event :=
  match sel with
  | .one entry => local_copy_file env entry input ++ [.reloadLocalDir]
  | .many entries =>
    (entries.map (fun e => local_copy_file env e (pathPush input e.name))).flatten
      ++ [.reloadLocalDir]
  | .none => []

/-- Rust `action_remote_copy`: copy the remote selection to `input`, then reload
the remote listing; a multi-entry selection copies each entry to
`input / name`. -/
def action_remote_copy (env : Env) (sel : SelectedEntry) (input : String) :
    List Event :=
  match sel with
  | .one entry => remote_copy_file env entry input ++ [.reloadRemoteDir]
  | .many entries =>
    (entries.map (fun e => remote_copy_file env e (pathPush input e.name))).flatten
      ++ [.reloadRemoteDir]
  | .none => []

/-! ### Derived definitions used to state the properties -/

/-- Push a whole sequence of directories, in order. -/
def FileExplorer.pushAll (e : FileExplorer) (ds : List String) : FileExplorer :=
  ds.foldl FileExplorer.pushd e

/-- Repeatedly `popd` until the stack reports empty, collecting the popped
directories in order. -/
def FileExplorer.popList (e : FileExplorer) : List String :=
  if h : (FileExplorer.popd e).1.isSome then
    (FileExplorer.popd e).1.get h :: FileExplorer.popList (FileExplorer.popd e).2
  else []
termination_by e.dirstack.length
decreasing_by
  simp only [FileExplorer.popd, Option.isSome_iff_exists] at h ⊢
  obtain ⟨d, hd⟩ := h
  have hne : e.dirstack ≠ [] := by
    intro hnil
    rw [hnil] at hd
    simp at hd
  have hlen : 0 < e.dirstack.length := List.length_pos.mpr hne
  simp [List.length_dropLast]
  omega

/-- The primary comparison relation of each sort criterion, as sorted by
the corresponding `sort_files_by_*` method. -/
def primaryRel : FileSorting → Entry → Entry → Prop
  | .name => FileExplorer.ascRel (fun x => x.name.toLower)
  | .modifyTime => FileExplorer.descRel (fun x => x.metadata.mtime)
  | .creationTime => FileExplorer.descRel (fun x => x.metadata.ctime)
  | .size => FileExplorer.descRel (fun x => x.metadata.size)

instance (s : FileSorting) : DecidableRel (primaryRel s) :=
  match s with
  | .name => inferInstanceAs (DecidableRel (FileExplorer.ascRel _))
  | .modifyTime => inferInstanceAs (DecidableRel (FileExplorer.descRel _))
  | .creationTime => inferInstanceAs (DecidableRel (FileExplorer.descRel _))
  | .size => inferInstanceAs (DecidableRel (FileExplorer.descRel _))

instance (s : FileSorting) : IsTotal Entry (primaryRel s) :=
  match s with
  | .name => inferInstanceAs (IsTotal Entry (FileExplorer.ascRel _))
  | .modifyTime => inferInstanceAs (IsTotal Entry (FileExplorer.descRel _))
  | .creationTime => inferInstanceAs (IsTotal Entry (FileExplorer.descRel _))
  | .size => inferInstanceAs (IsTotal Entry (FileExplorer.descRel _))

instance (s : FileSorting) : IsTrans Entry (primaryRel s) :=
  match s with
  | .name => inferInstanceAs (IsTrans Entry (FileExplorer.ascRel _))
  | .modifyTime => inferInstanceAs (IsTrans Entry (FileExplorer.descRel _))
  | .creationTime => inferInstanceAs (IsTrans Entry (FileExplorer.descRel _))
  | .size => inferInstanceAs (IsTrans Entry (FileExplorer.descRel _))

/-- The pure list-level content of `FileExplorer::sort`: primary stable
sort, then the optional stable grouping sort. -/
def sortedFiles (s : FileSorting) (g : Option GroupDirs) (l : List Entry) :
    List Entry :=
  let p := l.insertionSort (primaryRel s)
  match g with
  | none => p
  | some .first => p.insertionSort (FileExplorer.ascRel Entry.isFile)
  | some .last => p.insertionSort (FileExplorer.ascRel Entry.isDir)

/-! ### Concrete sample data for witnesses and counterexamples -/

/-- Sample metadata with a given size and timestamps. -/
def mdW (sz : Nat := 64) (mt : Nat := 0) (ct : Nat := 0) : Metadata :=
  { atime := 0, ctime := ct, mtime := mt, size := sz }

/-- Sample file entry. -/
def fileW (n : String) (sz : Nat := 64) : Entry :=
  .file { name := n, path := "/" ++ n, metadata := mdW sz }

/-- Sample directory entry. -/
def dirW (n : String) : Entry :=
  .directory { name := n, path := "/" ++ n, metadata := mdW }

/-- Sample explorer holding a mixed listing, hidden files not shown,
grouping directories first. -/
def explW : FileExplorer :=
  { FileExplorer.default with
      files := [fileW "README.md", dirW "src", dirW ".git", fileW ".gitignore"]
      groupDirs := some .first }

/-- An environment in which every collaborator call succeeds. -/
def envOkW : Env :=
  { tmpfileNew := .ok "/tmp/stage"
    tmpdirNew := .ok "/tmp/staged"
    recv := fun _ _ _ => .ok ()
    send := fun _ _ _ => .ok ()
    hostStat := fun p => .ok (.file { name := "stage", path := p, metadata := mdW })
    hostCopy := fun _ _ => .ok ()
    clientCopy := fun _ _ => .ok ()
    remoteWrkdir := "/wrk" }

/-- An environment in which direct remote copy reports `UnsupportedFeature`
and the temporary-file creation fails: the tricky copy fails at its first
stage. -/
def envStageFailW : Env :=
  { envOkW with
      tmpfileNew := .error "no space"
      clientCopy := fun _ _ => .error { kind := .unsupportedFeature, display := "unsupported" } }

/-- An environment in which direct remote copy fails with a generic
(non-unsupported) error. -/
def envGenericErrW : Env :=
  { envOkW with
      clientCopy := fun _ _ => .error { kind := .ioError, display := "io failure" } }

/-- An environment in which the host copy fails exactly for the entry at
path "/b.txt" and succeeds for every other entry. -/
def envFail2W : Env :=
  { envOkW with
      hostCopy := fun e _ =>
        if e.path = "/b.txt" then .error "simulated failure" else .ok () }

/-! ## Theorems -/

theorem Entry.isDir_eq_not_isFile (e : Entry) : e.isDir = !e.isFile := by
  cases e <;> rfl

section SortLemmas

variable {α : Type} (r : α → α → Prop) [DecidableRel r]

theorem orderedInsert_append_not_rel (x : α) (A B : List α)
    (hA : ∀ a ∈ A, ¬ r x a) :
    (A ++ B).orderedInsert r x = A ++ B.orderedInsert r x := by
  induction A with
  | nil => simp
  | cons a A ih =>
    simp only [List.cons_append, List.orderedInsert]
    rw [if_neg (hA a (List.mem_cons_self a A))]
    simp only [List.append_eq]
    rw [ih (fun b hb => hA b (List.mem_cons_of_mem a hb))]

/-- A stable sort by a boolean key is exactly the stable partition. -/
theorem insertionSort_boolKey (k : α → Bool) (l : List α) :
    l.insertionSort (FileExplorer.ascRel k)
      = l.filter (fun a => !(k a)) ++ l.filter k := by
  induction l with
  | nil => rfl
  | cons x xs ih =>
    rw [List.insertionSort, ih]
    by_cases hx : k x
    · rw [orderedInsert_append_not_rel]
      · have : (xs.filter k).orderedInsert (FileExplorer.ascRel k) x
            = x :: xs.filter k := by
          cases hfk : xs.filter k with
          | nil => rfl
          | cons b bs =>
            have hb : k b := by
              have := List.of_mem_filter (l := xs) (p := k)
                (by rw [hfk]; exact List.mem_cons_self b bs)
              exact this
            rw [List.orderedInsert, if_pos]
            show k x ≤ k b
            rw [hx, hb]
        rw [this]
        rw [List.filter_cons_of_neg (by simp [hx]), List.filter_cons_of_pos (by simp [hx])]
      · intro a ha
        have hka : k a = false := by
          have := List.of_mem_filter (l := xs) (p := fun a => !(k a)) ha
          simpa using this
        show ¬ (k x ≤ k a)
        rw [hx, hka]
        decide
    · have hx' : k x = false := by simpa using hx
      have : (xs.filter (fun a => !(k a)) ++ xs.filter k).orderedInsert
          (FileExplorer.ascRel k) x
          = x :: (xs.filter (fun a => !(k a)) ++ xs.filter k) := by
        cases hc : xs.filter (fun a => !(k a)) ++ xs.filter k with
        | nil => rfl
        | cons b bs =>
          rw [List.orderedInsert, if_pos]
          show k x ≤ k b
          rw [hx']
          exact Bool.false_le _
      rw [this]
      rw [List.filter_cons_of_pos (by simp [hx']), List.filter_cons_of_neg (by simp [hx'])]
      rfl

theorem filter_orderedInsert_pos [IsTrans α r] (p : α → Bool) (x : α)
    (l : List α) (hs : l.Sorted r) (hx : p x) :
    (l.orderedInsert r x).filter p = (l.filter p).orderedInsert r x := by
  induction l with
  | nil => simp [List.orderedInsert, hx]
  | cons b l ih =>
    rw [List.orderedInsert]
    by_cases hr : r x b
    · rw [if_pos hr, List.filter_cons_of_pos hx]
      by_cases hb : p b
      · rw [List.filter_cons_of_pos hb, List.orderedInsert, if_pos hr]
      · rw [List.filter_cons_of_neg hb]
        cases hfl : l.filter p with
        | nil => rfl
        | cons c cs =>
          rw [List.orderedInsert, if_pos]
          have hcl : c ∈ l := List.mem_of_mem_filter (by rw [hfl]; exact List.mem_cons_self c cs)
          exact Trans.trans hr (List.rel_of_sorted_cons hs c hcl)
    · rw [if_neg hr]
      by_cases hb : p b
      · rw [List.filter_cons_of_pos hb, List.filter_cons_of_pos hb,
          List.orderedInsert, if_neg hr, ih hs.of_cons]
      · rw [List.filter_cons_of_neg hb, List.filter_cons_of_neg hb, ih hs.of_cons]

theorem filter_orderedInsert_neg (p : α → Bool) (x : α) (l : List α)
    (hx : p x = false) :
    (l.orderedInsert r x).filter p = l.filter p := by
  rw [List.orderedInsert_eq_take_drop, List.filter_append, List.filter_cons_of_neg (by simp [hx]),
    ← List.filter_append, List.takeWhile_append_dropWhile]

/-- A stable sort commutes with filtering. -/
theorem filter_insertionSort [IsTotal α r] [IsTrans α r] (p : α → Bool)
    (l : List α) :
    (l.insertionSort r).filter p = (l.filter p).insertionSort r := by
  induction l with
  | nil => rfl
  | cons x xs ih =>
    rw [List.insertionSort]
    by_cases hx : p x
    · rw [filter_orderedInsert_pos r p x _ (List.sorted_insertionSort r xs) hx, ih,
        List.filter_cons_of_pos hx, List.insertionSort]
    · rw [filter_orderedInsert_neg r p x _ (by simpa using hx), ih,
        List.filter_cons_of_neg hx]

end SortLemmas

theorem FileExplorer.sort_state (e : FileExplorer) :
    e.sort = { e with files := sortedFiles e.fileSorting e.groupDirs e.files } := by
  rcases e with ⟨w, ds, ss, fs, gd, sh, fl⟩
  cases fs <;> rcases gd with _ | g <;> first
    | rfl
    | (cases g <;> rfl)

end Termscp

namespace Termscp

theorem groupKey_idem {α : Type} (r : α → α → Prop) [DecidableRel r]
    [IsTotal α r] [IsTrans α r] (k : α → Bool) (l : List α) :
    (((l.insertionSort r).insertionSort (FileExplorer.ascRel k)).insertionSort r).insertionSort
        (FileExplorer.ascRel k)
      = (l.insertionSort r).insertionSort (FileExplorer.ascRel k) := by
  set P := l.insertionSort r with hP
  have hPs : P.Sorted r := List.sorted_insertionSort r l
  rw [insertionSort_boolKey k P]
  set A := P.filter (fun a => !(k a)) with hA
  set B := P.filter k with hB
  rw [insertionSort_boolKey k ((A ++ B).insertionSort r)]
  have hAk : ∀ a ∈ A, k a = false := by
    intro a ha
    have := List.of_mem_filter (p := fun a => !(k a)) ha
    simpa using this
  have hBk : ∀ a ∈ B, k a = true := fun a ha => List.of_mem_filter ha
  have hfA : ((A ++ B).insertionSort r).filter (fun a => !(k a)) = A := by
    rw [filter_insertionSort r _ (A ++ B), List.filter_append]
    have h1 : A.filter (fun a => !(k a)) = A :=
      List.filter_eq_self.mpr (fun a ha => by simp [hAk a ha])
    have h2 : B.filter (fun a => !(k a)) = [] := by
      rw [List.filter_eq_nil_iff]
      intro a ha
      simp [hBk a ha]
    rw [h1, h2, List.append_nil]
    have hsA : A.Sorted r := by rw [hA]; exact hPs.filter _
    exact hsA.insertionSort_eq
  have hfB : ((A ++ B).insertionSort r).filter k = B := by
    rw [filter_insertionSort r _ (A ++ B), List.filter_append]
    have h1 : A.filter k = [] := by
      rw [List.filter_eq_nil_iff]
      intro a ha
      simp [hAk a ha]
    have h2 : B.filter k = B :=
      List.filter_eq_self.mpr (fun a ha => hBk a ha)
    rw [h1, h2, List.nil_append]
    have hsB : B.Sorted r := by rw [hB]; exact hPs.filter _
    exact hsB.insertionSort_eq
  rw [hfA, hfB]

theorem sortedFiles_idem (s : FileSorting) (g : Option GroupDirs) (l : List Entry) :
    sortedFiles s g (sortedFiles s g l) = sortedFiles s g l := by
  rcases g with _ | g
  · simp only [sortedFiles]
    exact (List.sorted_insertionSort _ l).insertionSort_eq
  · cases g
    · simp only [sortedFiles]
      exact groupKey_idem (primaryRel s) Entry.isFile l
    · simp only [sortedFiles]
      exact groupKey_idem (primaryRel s) Entry.isDir l

/-- C6: sorting is idempotent: re-applying the full sort to an explorer it
was just applied to changes nothing; and `sort_by` with the already-active
criterion, like `group_dirs_by` with the already-active policy, leaves the
whole explorer state exactly unchanged. -/
theorem C6_sort_idempotent (e : FileExplorer) :
    e.sort.sort = e.sort
    ∧ e.sort_by e.fileSorting = e
    ∧ e.group_dirs_by e.groupDirs = e := by
  refine ⟨?_, ?_, ?_⟩
  · rw [FileExplorer.sort_state e, FileExplorer.sort_state]
    simp [sortedFiles_idem]
  · simp [FileExplorer.sort_by]
  · simp [FileExplorer.group_dirs_by]

/-- C5: the engine sort first orders by the primary criterion (name:
case-insensitive lexicographic ascending; modify/creation time: newest
first; size: biggest first, directories not special-cased), then, when a
group policy is set, stably partitions directories before (First) or after
(Last) files, preserving each group's internal primary order; with no
group policy the primary order is untouched. -/
theorem C5_sort_order (e : FileExplorer) :
    (e.sort).files.Perm e.files
    ∧ (e.fileSorting = .name →
        (e.files.insertionSort (primaryRel e.fileSorting)).Sorted
          (fun a b => a.name.toLower ≤ b.name.toLower))
    ∧ (e.fileSorting = .modifyTime →
        (e.files.insertionSort (primaryRel e.fileSorting)).Sorted
          (fun a b => b.metadata.mtime ≤ a.metadata.mtime))
    ∧ (e.fileSorting = .creationTime →
        (e.files.insertionSort (primaryRel e.fileSorting)).Sorted
          (fun a b => b.metadata.ctime ≤ a.metadata.ctime))
    ∧ (e.fileSorting = .size →
        (e.files.insertionSort (primaryRel e.fileSorting)).Sorted
          (fun a b => b.metadata.size ≤ a.metadata.size))
    ∧ (e.groupDirs = none →
        (e.sort).files = e.files.insertionSort (primaryRel e.fileSorting))
    ∧ (e.groupDirs = some .first →
        (e.sort).files
          = (e.files.insertionSort (primaryRel e.fileSorting)).filter (fun x => x.isDir)
            ++ (e.files.insertionSort (primaryRel e.fileSorting)).filter (fun x => x.isFile))
    ∧ (e.groupDirs = some .last →
        (e.sort).files
          = (e.files.insertionSort (primaryRel e.fileSorting)).filter (fun x => x.isFile)
            ++ (e.files.insertionSort (primaryRel e.fileSorting)).filter (fun x => x.isDir)) := by
  have hfiles : (e.sort).files = sortedFiles e.fileSorting e.groupDirs e.files := by
    rw [FileExplorer.sort_state]
  refine ⟨?_, ?_, ?_, ?_, ?_, ?_, ?_, ?_⟩
  · rw [hfiles]
    rcases hg : e.groupDirs with _ | g
    · simp only [sortedFiles]
      exact List.perm_insertionSort _ _
    · cases g <;> simp only [sortedFiles] <;>
        exact (List.perm_insertionSort _ _).trans (List.perm_insertionSort _ _)
  · intro hs
    rw [hs]
    exact List.sorted_insertionSort (primaryRel .name) e.files
  · intro hs
    rw [hs]
    exact List.sorted_insertionSort (primaryRel .modifyTime) e.files
  · intro hs
    rw [hs]
    exact List.sorted_insertionSort (primaryRel .creationTime) e.files
  · intro hs
    rw [hs]
    exact List.sorted_insertionSort (primaryRel .size) e.files
  · intro hg
    rw [hfiles, hg]
    simp only [sortedFiles]
  · intro hg
    rw [hfiles, hg]
    simp only [sortedFiles]
    rw [insertionSort_boolKey Entry.isFile]
    congr 1
    exact List.filter_congr (fun x _ => by rw [Entry.isDir_eq_not_isFile])
  · intro hg
    rw [hfiles, hg]
    simp only [sortedFiles]
    rw [insertionSort_boolKey Entry.isDir]
    congr 1
    exact List.filter_congr (fun x _ => by
      rw [Entry.isDir_eq_not_isFile, Bool.not_not])

/-- Witness for C5 at a concrete explorer (name sort, directories first). -/
theorem C5_sort_order_witness :
    List.Sorted (fun a b : Entry => a.name.toLower ≤ b.name.toLower)
        (explW.files.insertionSort (primaryRel explW.fileSorting))
    ∧ (explW.sort).files
        = (explW.files.insertionSort (primaryRel explW.fileSorting)).filter (fun x => x.isDir)
          ++ (explW.files.insertionSort (primaryRel explW.fileSorting)).filter
              (fun x => x.isFile) :=
  ⟨(C5_sort_order explW).2.1 rfl, (C5_sort_order explW).2.2.2.2.2.2.1 rfl⟩

end Termscp

namespace Termscp

/-- C7: hidden-file visibility is a pure read-time filter: with the flag
off, `iter_files` yields exactly the stored entries whose name does not
start with a dot, in stored order; with the flag on it yields all stored
entries; toggling never touches the backing sequence and two toggles
restore the whole state. -/
theorem C7_hidden_filter (e : FileExplorer) :
    (e.hidden_files_visible = false →
      e.iter_files = e.files.filter (fun x => !(x.name.startsWith ".")))
    ∧ (e.hidden_files_visible = true → e.iter_files = e.files)
    ∧ (e.toggle_hidden_files).files = e.files
    ∧ e.toggle_hidden_files.toggle_hidden_files = e := by
  refine ⟨?_, ?_, rfl, ?_⟩
  · intro h
    simp only [FileExplorer.hidden_files_visible] at h
    exact List.filter_congr (fun x _ => by
      simp [FileExplorer.visibleFilter, Entry.isHidden, h])
  · intro h
    simp only [FileExplorer.hidden_files_visible] at h
    exact List.filter_eq_self.mpr (fun x _ => by
      simp [FileExplorer.visibleFilter, h])
  · simp [FileExplorer.toggle_hidden_files]

/-- Witness for C7 at a concrete explorer whose flag is off. -/
theorem C7_hidden_filter_witness :
    explW.iter_files = explW.files.filter (fun x => !(x.name.startsWith ".")) :=
  (C7_hidden_filter explW).1 rfl

/-- C9: `del_entry` on an in-range index removes exactly the entry at that
position of the unfiltered backing sequence (count drops by one); an
out-of-range index is a silent, failure-free no-op leaving the whole
state unchanged. -/
theorem C9_del_entry (e : FileExplorer) (i : Nat) :
    (i < e.files.length →
      (e.del_entry i).files = e.files.take i ++ e.files.drop (i + 1)
      ∧ (e.del_entry i).files.length = e.files.length - 1)
    ∧ (e.files.length ≤ i → e.del_entry i = e) := by
  constructor
  · intro h
    simp only [FileExplorer.del_entry, if_pos h]
    constructor
    · rw [List.eraseIdx_eq_take_drop_succ]
    · rw [List.length_eraseIdx_of_lt h]
  · intro h
    simp [FileExplorer.del_entry, Nat.not_lt.mpr h]

/-- Witness for C9: deleting index 0 of a four-entry listing, and index 5
out of range. -/
theorem C9_del_entry_witness :
    (explW.del_entry 0).files = explW.files.take 0 ++ explW.files.drop 1
    ∧ explW.del_entry 5 = explW :=
  ⟨((C9_del_entry explW 0).1 (by decide)).1, (C9_del_entry explW 5).2 (by decide)⟩

end Termscp

namespace Termscp

theorem shrinkFront_eq_drop (size : Nat) (l : List String) :
    FileExplorer.shrinkFront size l = l.drop (l.length + 1 - size) := by
  induction l with
  | nil => simp [FileExplorer.shrinkFront]
  | cons p ps ih =>
    rw [FileExplorer.shrinkFront]
    by_cases h : size ≤ ps.length + 1
    · rw [if_pos h, ih]
      have h2 : (p :: ps).length + 1 - size = (ps.length + 1 - size) + 1 := by
        simp only [List.length_cons]
        omega
      rw [h2, List.drop_succ_cons]
    · rw [if_neg h]
      have h2 : (p :: ps).length + 1 - size = 0 := by
        simp only [List.length_cons]
        omega
      rw [h2, List.drop_zero]

theorem pushd_dirstack (e : FileExplorer) (d : String) (hk : 0 < e.stackSize) :
    (e.pushd d).dirstack
      = (e.dirstack ++ [d]).drop (e.dirstack.length + 1 - e.stackSize) := by
  simp only [FileExplorer.pushd, shrinkFront_eq_drop]
  rw [List.drop_append_of_le_length (by omega)]

theorem pushAll_dirstack (k : Nat) (hk : 0 < k) :
    ∀ (ds : List String) (e : FileExplorer), e.stackSize = k →
      e.dirstack.length ≤ k →
      (e.pushAll ds).dirstack
        = (e.dirstack ++ ds).drop (e.dirstack.length + ds.length - k)
  | [], e, hek, hlen => by
    simp only [FileExplorer.pushAll, List.foldl_nil, List.append_nil, List.length_nil]
    have h0 : e.dirstack.length + 0 - k = 0 := by omega
    rw [h0, List.drop_zero]
  | d :: ds, e, hek, hlen => by
    have hstep : e.pushAll (d :: ds) = (e.pushd d).pushAll ds := rfl
    rw [hstep]
    have hke : 0 < e.stackSize := by rw [hek]; exact hk
    have hd : (e.pushd d).dirstack
        = (e.dirstack ++ [d]).drop (e.dirstack.length + 1 - k) := by
      rw [pushd_dirstack e d hke, hek]
    have hlen' : (e.pushd d).dirstack.length ≤ k := by
      rw [hd, List.length_drop, List.length_append]
      simp only [List.length_cons, List.length_nil]
      omega
    rw [pushAll_dirstack k hk ds (e.pushd d) hek hlen', hd]
    have hm : e.dirstack.length + 1 - k ≤ (e.dirstack ++ [d]).length := by
      rw [List.length_append]
      simp only [List.length_cons, List.length_nil]
      omega
    rw [← List.drop_append_of_le_length hm]
    rw [List.drop_drop]
    have harith : (e.dirstack.length + 1 - k) +
        ((List.drop (e.dirstack.length + 1 - k) (e.dirstack ++ [d])).length
          + ds.length - k)
        = e.dirstack.length + (d :: ds).length - k := by
      rw [List.length_drop, List.length_append]
      simp only [List.length_cons, List.length_nil]
      omega
    rw [harith, List.append_assoc]
    rfl


theorem popList_eq_reverse (e : FileExplorer) : e.popList = e.dirstack.reverse := by
  suffices hgen : ∀ (n : Nat) (f : FileExplorer), f.dirstack.length ≤ n →
      f.popList = f.dirstack.reverse from hgen e.dirstack.length e le_rfl
  intro n
  induction n with
  | zero =>
    intro f hf
    have hnil : f.dirstack = [] := List.eq_nil_of_length_eq_zero (Nat.le_zero.mp hf)
    rw [FileExplorer.popList]
    split
    next h =>
      exfalso
      simp [FileExplorer.popd, hnil] at h
    next h =>
      simp [hnil]
  | succ n ih =>
    intro f hf
    rw [FileExplorer.popList]
    split
    next h =>
      have hne : f.dirstack ≠ [] := by
        simp only [FileExplorer.popd] at h
        intro hnil
        rw [hnil] at h
        simp at h
      have hlt : (FileExplorer.popd f).2.dirstack.length ≤ n := by
        simp only [FileExplorer.popd, List.length_dropLast]
        have : 0 < f.dirstack.length := List.length_pos.mpr hne
        omega
      rw [ih (FileExplorer.popd f).2 hlt]
      simp only [FileExplorer.popd]
      conv_rhs => rw [← List.dropLast_append_getLast hne]
      rw [List.reverse_append]
      simp [List.getLast?_eq_getLast _ hne]
    next h =>
      have hnil : f.dirstack = [] := by
        simp only [FileExplorer.popd, Option.isSome_iff_exists] at h
        push_neg at h
        rcases he : f.dirstack with _ | ⟨a, l⟩
        · rfl
        · exfalso
          have hg : f.dirstack.getLast? = some (f.dirstack.getLast (by rw [he]; simp)) :=
            List.getLast?_eq_getLast _ _
          exact h _ hg
      simp [hnil]

/-- C8: the navigation stack is bounded with FIFO eviction and LIFO
access: pushing any sequence onto an empty stack of capacity `k > 0`
leaves exactly the (at most `k`) most-recently-pushed paths — the oldest
are evicted from the front — the bound is respected after every push,
pops return the survivors in reverse push order, and popping an empty
stack returns none. -/
theorem C8_nav_stack (k : Nat) (hk : 0 < k) (ds : List String) :
    (({ FileExplorer.default with stackSize := k } : FileExplorer).pushAll ds).dirstack
        = ds.drop (ds.length - k)
    ∧ (∀ n, (({ FileExplorer.default with stackSize := k } : FileExplorer).pushAll
        (ds.take n)).dirstack.length ≤ k)
    ∧ (({ FileExplorer.default with stackSize := k } : FileExplorer).pushAll ds).popList
        = (ds.drop (ds.length - k)).reverse
    ∧ (∀ e : FileExplorer, e.dirstack = [] → (FileExplorer.popd e).1 = none) := by
  have hmain : ∀ l : List String,
      (({ FileExplorer.default with stackSize := k } : FileExplorer).pushAll l).dirstack
        = l.drop (l.length - k) := by
    intro l
    have := pushAll_dirstack k hk l { FileExplorer.default with stackSize := k } rfl
      (by simp [FileExplorer.default])
    simpa [FileExplorer.default] using this
  refine ⟨hmain ds, ?_, ?_, ?_⟩
  · intro n
    rw [hmain (ds.take n), List.length_drop]
    omega
  · rw [popList_eq_reverse, hmain ds]
  · intro e he
    simp [FileExplorer.popd, he]

/-- Witness for C8: capacity 2, three pushes; the two most recent paths
survive, poppable most-recent first, and an empty stack pops none. -/
theorem C8_nav_stack_witness :
    (({ FileExplorer.default with stackSize := 2 } : FileExplorer).pushAll
        ["/tmp", "/home/omar", "/dev"]).dirstack = ["/home/omar", "/dev"]
    ∧ (({ FileExplorer.default with stackSize := 2 } : FileExplorer).pushAll
        ["/tmp", "/home/omar", "/dev"]).popList = ["/dev", "/home/omar"]
    ∧ (FileExplorer.popd FileExplorer.default).1 = none := by
  have h := C8_nav_stack 2 (by decide) ["/tmp", "/home/omar", "/dev"]
  exact ⟨h.1, h.2.2.1, h.2.2.2 FileExplorer.default rfl⟩

end Termscp

namespace Termscp

/-- The tricky-copy trace always starts by unmounting the wait block, and
never contains a direct-copy or reload event. -/
theorem tricky_trace_shape (env : Env) (entry : Entry) (dest : String) :
    Event.umountWait ∈ (tricky_copy env entry dest).1
    ∧ ∀ ev ∈ (tricky_copy env entry dest).1,
        ev.isClientCopy = false ∧ ev.isHostCopy = false
        ∧ ev.isReloadRemote = false ∧ ev.isReloadLocal = false := by
  rcases entry with f | d
  · rcases htf : env.tmpfileNew with m | p
    · simp [tricky_copy, htf, Event.isClientCopy, Event.isHostCopy,
        Event.isReloadRemote, Event.isReloadLocal]
    · rcases hrecv : env.recv (.file f) p (some f.name) with m | u
      · simp [tricky_copy, htf, hrecv, Event.isClientCopy, Event.isHostCopy,
          Event.isReloadRemote, Event.isReloadLocal]
      · rcases hstat : env.hostStat p with m | st
        · simp [tricky_copy, htf, hrecv, hstat, Event.isClientCopy, Event.isHostCopy,
            Event.isReloadRemote, Event.isReloadLocal]
        · rcases hsend : env.send (.file st.unwrapFile) env.remoteWrkdir (some dest)
              with m | u2 <;>
            simp [tricky_copy, htf, hrecv, hstat, hsend, Event.isClientCopy,
              Event.isHostCopy, Event.isReloadRemote, Event.isReloadLocal]
  · rcases htd : env.tmpdirNew with m | td
    · simp [tricky_copy, htd, Event.isClientCopy, Event.isHostCopy,
        Event.isReloadRemote, Event.isReloadLocal]
    · rcases hrecv : env.recv (.any (.directory d)) td none with m | u
      · simp [tricky_copy, htd, hrecv, Event.isClientCopy, Event.isHostCopy,
          Event.isReloadRemote, Event.isReloadLocal]
      · rcases hstat : env.hostStat (pathPush td d.name) with m | st
        · simp [tricky_copy, htd, hrecv, hstat, Event.isClientCopy, Event.isHostCopy,
            Event.isReloadRemote, Event.isReloadLocal]
        · rcases hsend : env.send (.any st) env.remoteWrkdir (some dest) with m | u2 <;>
            simp [tricky_copy, htd, hrecv, hstat, hsend, Event.isClientCopy,
              Event.isHostCopy, Event.isReloadRemote, Event.isReloadLocal]

/-- C1: the staged copy of a File is fail-fast: a temp-file failure means
no download, stat or upload; a download failure means no stat or upload; a
stat failure means no upload; every failure returns an error and raises a
stage-identifying alert; and when all stages succeed the call returns
success. -/
theorem C1_tricky_copy_fail_fast (env : Env) (f : FileData) (dest : String) :
    (∀ m, env.tmpfileNew = .error m →
      (tricky_copy env (.file f) dest).1.filter Event.isDownload = []
      ∧ (tricky_copy env (.file f) dest).1.filter Event.isStatCall = []
      ∧ (tricky_copy env (.file f) dest).1.filter Event.isUpload = []
      ∧ (tricky_copy env (.file f) dest).2 = .error "Could not create temporary file"
      ∧ Event.loggedAndAlerted .error
          ("Copy failed: could not create temporary file: " ++ m)
          ∈ (tricky_copy env (.file f) dest).1)
    ∧ (∀ p m, env.tmpfileNew = .ok p → env.recv (.file f) p (some f.name) = .error m →
      (tricky_copy env (.file f) dest).1.filter Event.isStatCall = []
      ∧ (tricky_copy env (.file f) dest).1.filter Event.isUpload = []
      ∧ (tricky_copy env (.file f) dest).2 = .error m
      ∧ Event.loggedAndAlerted .error
          ("Copy failed: could not download to temporary file: " ++ m)
          ∈ (tricky_copy env (.file f) dest).1)
    ∧ (∀ p m, env.tmpfileNew = .ok p → env.recv (.file f) p (some f.name) = .ok ()
        → env.hostStat p = .error m →
      (tricky_copy env (.file f) dest).1.filter Event.isUpload = []
      ∧ (tricky_copy env (.file f) dest).2 = .error m
      ∧ Event.loggedAndAlerted .error
          ("Copy failed: could not stat \"" ++ p ++ "\": " ++ m)
          ∈ (tricky_copy env (.file f) dest).1)
    ∧ (∀ p st, env.tmpfileNew = .ok p → env.recv (.file f) p (some f.name) = .ok ()
        → env.hostStat p = .ok st
        → env.send (.file st.unwrapFile) env.remoteWrkdir (some dest) = .ok () →
      (tricky_copy env (.file f) dest).2 = .ok ()) := by
  refine ⟨?_, ?_, ?_, ?_⟩
  · intro m htf
    simp [tricky_copy, htf, Event.isDownload, Event.isStatCall, Event.isUpload]
  · intro p m htf hrecv
    simp [tricky_copy, htf, hrecv, Event.isStatCall, Event.isUpload]
  · intro p m htf hrecv hstat
    simp [tricky_copy, htf, hrecv, hstat, Event.isUpload]
  · intro p st htf hrecv hstat hsend
    simp [tricky_copy, htf, hrecv, hstat, hsend]

/-- Witness for C1: a fully successful staged copy returns success, and a
temp-file failure aborts before any download. -/
theorem C1_tricky_copy_fail_fast_witness :
    (tricky_copy envOkW (fileW "a.txt") "/dest").2 = .ok ()
    ∧ (tricky_copy envStageFailW (fileW "a.txt") "/dest").1.filter Event.isDownload = [] := by
  constructor
  · exact (C1_tricky_copy_fail_fast envOkW
      { name := "a.txt", path := "/a.txt", metadata := mdW } "/dest").2.2.2
      "/tmp/stage" (.file { name := "stage", path := "/tmp/stage", metadata := mdW })
      rfl rfl rfl rfl
  · exact ((C1_tricky_copy_fail_fast envStageFailW
      { name := "a.txt", path := "/a.txt", metadata := mdW } "/dest").1
      "no space" rfl).1

/-- C10: a copy action invoked on an empty selection is a complete no-op:
no backend call, no log, no reload — the effect trace is empty. -/
theorem C10_empty_selection_noop (env : Env) (input : String) :
    action_local_copy env .none input = []
    ∧ action_remote_copy env .none input = [] :=
  ⟨rfl, rfl⟩


/-- C2: the staged fallback is invoked exactly when the direct remote copy
fails with the `UnsupportedFeature` kind: a success logs and never stages;
a generic error is logged and alerted as-is with no download or upload
attempted; an unsupported error hands over to `tricky_copy`. -/
theorem C2_fallback_iff_unsupported (env : Env) (entry : Entry) (dest : String) :
    (env.clientCopy entry.path dest = .ok () →
      remote_copy_file env entry dest
        = [.clientCopy entry.path dest,
           .logged .info ("Copied \"" ++ entry.path ++ "\" to \"" ++ dest ++ "\"")]
      ∧ (remote_copy_file env entry dest).filter Event.isUmountWait = []
      ∧ (remote_copy_file env entry dest).filter Event.isDownload = []
      ∧ (remote_copy_file env entry dest).filter Event.isUpload = [])
    ∧ (∀ err, env.clientCopy entry.path dest = .error err →
        err.kind ≠ .unsupportedFeature →
      remote_copy_file env entry dest
        = [.clientCopy entry.path dest,
           .loggedAndAlerted .error
             ("Could not copy \"" ++ entry.path ++ "\" to \"" ++ dest ++ "\": "
               ++ err.display)]
      ∧ (remote_copy_file env entry dest).filter Event.isUmountWait = []
      ∧ (remote_copy_file env entry dest).filter Event.isDownload = []
      ∧ (remote_copy_file env entry dest).filter Event.isUpload = [])
    ∧ (∀ err, env.clientCopy entry.path dest = .error err →
        err.kind = .unsupportedFeature →
      remote_copy_file env entry dest
        = .clientCopy entry.path dest :: (tricky_copy env entry dest).1
      ∧ Event.umountWait ∈ remote_copy_file env entry dest) := by
  refine ⟨?_, ?_, ?_⟩
  · intro h
    refine ⟨?_, ?_, ?_, ?_⟩ <;>
      simp [remote_copy_file, h, Event.isUmountWait, Event.isDownload, Event.isUpload]
  · intro err h hne
    rcases err with ⟨kind, disp⟩
    cases kind
    case unsupportedFeature => exact absurd rfl hne
    all_goals
      refine ⟨?_, ?_, ?_, ?_⟩ <;>
        simp [remote_copy_file, h, Event.isUmountWait, Event.isDownload, Event.isUpload]
  · intro err h hk
    rcases err with ⟨kind, disp⟩
    cases kind <;> simp_all
    constructor
    · simp [remote_copy_file, h]
    · rw [show remote_copy_file env entry dest
          = .clientCopy entry.path dest :: (tricky_copy env entry dest).1
          from by simp [remote_copy_file, h]]
      exact List.mem_cons_of_mem _ (tricky_trace_shape env entry dest).1

/-- Witness for C2: a generic error environment reports the error as-is and
stages nothing; an unsupported environment invokes the fallback. -/
theorem C2_fallback_iff_unsupported_witness :
    (remote_copy_file envGenericErrW (fileW "a.txt") "/dest").filter
        Event.isUmountWait = []
    ∧ Event.umountWait ∈ remote_copy_file envStageFailW (fileW "a.txt") "/dest" := by
  constructor
  · exact (((C2_fallback_iff_unsupported envGenericErrW (fileW "a.txt") "/dest").2.1
      { kind := .ioError, display := "io failure" } rfl (by decide)).2).1
  · exact ((C2_fallback_iff_unsupported envStageFailW (fileW "a.txt") "/dest").2.2
      { kind := .unsupportedFeature, display := "unsupported" } rfl rfl).2


theorem remote_copy_file_no_reload (env : Env) (e : Entry) (d : String) :
    ∀ ev ∈ remote_copy_file env e d, ev.isReloadRemote = false := by
  rcases h : env.clientCopy e.path d with err | u
  · rcases err with ⟨kind, disp⟩
    cases kind
    case unsupportedFeature =>
      intro ev hev
      rw [show remote_copy_file env e d
          = .clientCopy e.path d :: (tricky_copy env e d).1
          from by simp [remote_copy_file, h]] at hev
      rcases List.mem_cons.mp hev with rfl | hmem
      · rfl
      · exact ((tricky_trace_shape env e d).2 ev hmem).2.2.1
    all_goals
      intro ev hev
      simp [remote_copy_file, h] at hev
      rcases hev with rfl | rfl <;> rfl
  · intro ev hev
    simp [remote_copy_file, h] at hev
    rcases hev with rfl | rfl <;> rfl

theorem flatten_remote_no_reload (env : Env) (input : String) (es : List Entry) :
    ∀ ev ∈ (es.map (fun e => remote_copy_file env e (pathPush input e.name))).flatten,
      ev.isReloadRemote = false := by
  induction es with
  | nil => simp
  | cons e es ih =>
    intro ev hev
    simp only [List.map_cons, List.flatten_cons, List.mem_append] at hev
    rcases hev with hev | hev
    · exact remote_copy_file_no_reload env e _ ev hev
    · exact ih ev hev

/-- C3 counterexample: with a backend whose copy is unsupported and whose
temp-file creation fails, the tricky copy fails at its first stage, yet a
single-entry remote copy action still reloads the remote listing —
refuting "after a tricky copy that fails at any stage, the remote side's
directory listing is not refreshed". -/
theorem C3_refresh_on_failure_counterexample :
    (tricky_copy envStageFailW (fileW "a.txt") "/dest").2
        = .error "Could not create temporary file"
    ∧ Event.reloadRemoteDir
        ∈ action_remote_copy envStageFailW (.one (fileW "a.txt")) "/dest" := by
  constructor
  · rfl
  · decide

/-- C3 (amended): the remote listing is reloaded after every remote copy
action with a nonempty selection, unconditionally — whether the direct
copy succeeded, failed generically, or fell back to a tricky copy that
succeeded or failed; only an empty selection skips the reload. -/
theorem C3_amended_refresh_always (env : Env) (sel : SelectedEntry) (input : String) :
    (sel ≠ SelectedEntry.none →
      (action_remote_copy env sel input).countP Event.isReloadRemote = 1)
    ∧ (sel = SelectedEntry.none → action_remote_copy env sel input = []) := by
  constructor
  · intro hne
    rcases sel with e | es | _
    · simp only [action_remote_copy, List.countP_append]
      rw [List.countP_eq_zero.mpr (fun ev hev => by
        simp [remote_copy_file_no_reload env e input ev hev])]
      rfl
    · simp only [action_remote_copy, List.countP_append]
      rw [List.countP_eq_zero.mpr (fun ev hev => by
        simp [flatten_remote_no_reload env input es ev hev])]
      rfl
    · exact absurd rfl hne
  · intro h
    subst h
    rfl

/-- Witness for C3 (amended): the failing-stage environment still reloads
exactly once. -/
theorem C3_amended_refresh_always_witness :
    (action_remote_copy envStageFailW (.one (fileW "a.txt")) "/dest").countP
        Event.isReloadRemote = 1 :=
  (C3_amended_refresh_always envStageFailW (.one (fileW "a.txt")) "/dest").1
    (fun h => SelectedEntry.noConfusion h)


theorem local_copy_file_filter_hostCopy (env : Env) (e : Entry) (d : String) :
    (local_copy_file env e d).filter Event.isHostCopy = [.hostCopy e.path d] := by
  rcases h : env.hostCopy e d with err | u <;>
    simp [local_copy_file, h, Event.isHostCopy]

theorem local_copy_file_log_count (env : Env) (e : Entry) (d : String) :
    (local_copy_file env e d).countP Event.isAnyLog = 1 := by
  rcases h : env.hostCopy e d with err | u <;>
    simp [local_copy_file, h, Event.isAnyLog, List.countP_cons]

theorem remote_copy_file_filter_clientCopy (env : Env) (e : Entry) (d : String) :
    (remote_copy_file env e d).filter Event.isClientCopy = [.clientCopy e.path d] := by
  rcases h : env.clientCopy e.path d with err | u
  · rcases err with ⟨kind, disp⟩
    cases kind
    case unsupportedFeature =>
      rw [show remote_copy_file env e d
          = .clientCopy e.path d :: (tricky_copy env e d).1
          from by simp [remote_copy_file, h]]
      rw [List.filter_cons_of_pos rfl]
      rw [List.filter_eq_nil_iff.mpr (fun ev hev => by
        simp [((tricky_trace_shape env e d).2 ev hev).1])]
    all_goals simp [remote_copy_file, h, Event.isClientCopy]
  · simp [remote_copy_file, h, Event.isClientCopy]

theorem remote_copy_file_log_once (env : Env) (e : Entry) (d : String)
    (hnf : (remote_copy_file env e d).filter Event.isUmountWait = []) :
    (remote_copy_file env e d).countP Event.isAnyLog = 1 := by
  rcases h : env.clientCopy e.path d with err | u
  · rcases err with ⟨kind, disp⟩
    cases kind
    case unsupportedFeature =>
      exfalso
      have hmem : Event.umountWait ∈ remote_copy_file env e d := by
        rw [show remote_copy_file env e d
            = .clientCopy e.path d :: (tricky_copy env e d).1
            from by simp [remote_copy_file, h]]
        exact List.mem_cons_of_mem _ (tricky_trace_shape env e d).1
      exact List.filter_eq_nil_iff.mp hnf _ hmem rfl
    all_goals simp [remote_copy_file, h, Event.isAnyLog, List.countP_cons]
  · simp [remote_copy_file, h, Event.isAnyLog, List.countP_cons]

theorem flatten_local_filter_hostCopy (env : Env) (input : String) (es : List Entry) :
    ((es.map (fun e => local_copy_file env e (pathPush input e.name))).flatten).filter
        Event.isHostCopy
      = es.map (fun e => .hostCopy e.path (pathPush input e.name)) := by
  induction es with
  | nil => rfl
  | cons e es ih =>
    simp only [List.map_cons, List.flatten_cons, List.filter_append]
    rw [local_copy_file_filter_hostCopy, ih]
    rfl

theorem flatten_local_log_count (env : Env) (input : String) (es : List Entry) :
    ((es.map (fun e => local_copy_file env e (pathPush input e.name))).flatten).countP
        Event.isAnyLog = es.length := by
  induction es with
  | nil => rfl
  | cons e es ih =>
    simp only [List.map_cons, List.flatten_cons, List.countP_append]
    rw [local_copy_file_log_count, ih, List.length_cons]
    omega

theorem flatten_remote_filter_clientCopy (env : Env) (input : String) (es : List Entry) :
    ((es.map (fun e => remote_copy_file env e (pathPush input e.name))).flatten).filter
        Event.isClientCopy
      = es.map (fun e => .clientCopy e.path (pathPush input e.name)) := by
  induction es with
  | nil => rfl
  | cons e es ih =>
    simp only [List.map_cons, List.flatten_cons, List.filter_append]
    rw [remote_copy_file_filter_clientCopy, ih]
    rfl

/-- C4: a multi-entry copy treats the destination as a directory and
attempts every entry independently at `dest / name`: the per-entry traces
are concatenated in selection order, every entry's backend copy is
attempted no matter how the others fared, each local outcome is logged
individually, and each remote outcome that does not enter the staged
fallback is logged individually. -/
theorem C4_batch_independent (env : Env) (es : List Entry) (input : String) :
    action_local_copy env (.many es) input
      = (es.map (fun e => local_copy_file env e (pathPush input e.name))).flatten
        ++ [.reloadLocalDir]
    ∧ (action_local_copy env (.many es) input).filter Event.isHostCopy
      = es.map (fun e => .hostCopy e.path (pathPush input e.name))
    ∧ (action_local_copy env (.many es) input).countP Event.isAnyLog = es.length
    ∧ action_remote_copy env (.many es) input
      = (es.map (fun e => remote_copy_file env e (pathPush input e.name))).flatten
        ++ [.reloadRemoteDir]
    ∧ (action_remote_copy env (.many es) input).filter Event.isClientCopy
      = es.map (fun e => .clientCopy e.path (pathPush input e.name))
    ∧ (∀ e ∈ es,
        (remote_copy_file env e (pathPush input e.name)).filter Event.isUmountWait = [] →
        (remote_copy_file env e (pathPush input e.name)).countP Event.isAnyLog = 1) := by
  refine ⟨rfl, ?_, ?_, rfl, ?_, ?_⟩
  · simp only [action_local_copy, List.filter_append]
    rw [flatten_local_filter_hostCopy]
    simp [Event.isHostCopy]
  · simp only [action_local_copy, List.countP_append]
    rw [flatten_local_log_count]
    simp [Event.isAnyLog, List.countP_cons]
  · simp only [action_remote_copy, List.filter_append]
    rw [flatten_remote_filter_clientCopy]
    simp [Event.isClientCopy]
  · intro e _ hnf
    exact remote_copy_file_log_once env e _ hnf

/-- Witness for C4: three entries where the middle one fails: all three are
attempted and three individual outcomes are logged. -/
theorem C4_batch_independent_witness :
    (action_local_copy envFail2W
        (.many [fileW "a.txt", fileW "b.txt", fileW "c.txt"]) "/dst").filter
        Event.isHostCopy
      = [.hostCopy "/a.txt" "/dst/a.txt", .hostCopy "/b.txt" "/dst/b.txt",
         .hostCopy "/c.txt" "/dst/c.txt"]
    ∧ (action_local_copy envFail2W
        (.many [fileW "a.txt", fileW "b.txt", fileW "c.txt"]) "/dst").countP
        Event.isAnyLog = 3 := by
  have h := C4_batch_independent envFail2W [fileW "a.txt", fileW "b.txt", fileW "c.txt"] "/dst"
  refine ⟨?_, ?_⟩
  · rw [h.2.1]
    rfl
  · exact h.2.2.1

end Termscp
